import Mathlib

/-!
Verification of the OAuth2 PKCE / Dynamic Client Registration core of the
`pup` command-line tool (packages `pkg/auth/types`, `pkg/auth/oauth`,
`pkg/auth/callback` and the orchestrator `cmd/auth.go`).

The Go code is shallowly embedded:

* pure functions become Lean functions;
* the cryptographic random source (`crypto/rand`) and the SHA-256 hash
  (`crypto/sha256`) are standard-library collaborators, so they enter the
  embedding as explicit parameters (the random bytes produced, and the hash
  function itself);
* `encoding/base64.RawURLEncoding.EncodeToString` is embedded concretely
  (RFC 4648 URL-safe alphabet, no padding);
* the capacity-1 buffered channel used by the callback listener is embedded
  as an explicit state (`Chan`): a buffer holding at most one value plus the
  FIFO queue of senders blocked on a full buffer, exactly Go's semantics for
  `make(chan T, 1)`;
* the orchestrator actions of `cmd/auth.go` become explicit state-passing
  functions over a per-site credential store, returning the new store, a
  trace of the external calls they performed, and an `Except` result;
* time is measured in integer seconds (all token timestamps in the source
  are Unix seconds; `time.Time.After` is a strict comparison).

The credential store (`pkg/auth/storage`), the DCR client
(`dcr.Client.Register` / `ExchangeCode` / `RefreshToken`) and the OAuth
client (`oauth.Client.BuildAuthorizationURL` / `ValidateCallback`) are not
under `src/` — only their callers are.  Definitions for those few pieces are
modelled from the spec and marked as such in their doc comments.
-/

/-- The URL-safe base64 alphabet of RFC 4648, used by Go's
`base64.RawURLEncoding` (`encoding/base64`). -/
def base64UrlAlphabet : List Char :=
  "ABCDEFGHIJKLMNOPQRSTUVWXYZabcdefghijklmnopqrstuvwxyz0123456789-_".toList

/-- Look up one 6-bit group in the URL-safe alphabet (out-of-range indices
never occur for byte input; the default keeps the function total). -/
def b64char (n : Nat) : Char :=
  base64UrlAlphabet.getD n 'A'

/-- Embedding of `base64.RawURLEncoding.EncodeToString`: URL-safe base64
without padding.  Bytes are `Nat`s below 256; each group of three bytes
yields four characters, a final group of two bytes yields three characters
and a final single byte yields two. -/
def base64RawUrlEncode : List Nat → List Char
  | b0 :: b1 :: b2 :: rest =>
      b64char (b0 / 4) :: b64char (b0 % 4 * 16 + b1 / 16) ::
      b64char (b1 % 16 * 4 + b2 / 64) :: b64char (b2 % 64) ::
      base64RawUrlEncode rest
  | [b0, b1] =>
      [b64char (b0 / 4), b64char (b0 % 4 * 16 + b1 / 16), b64char (b1 % 16 * 4)]
  | [b0] =>
      [b64char (b0 / 4), b64char (b0 % 4 * 16)]
  | [] => []

/-- The byte count computed by `generateRandomString` in
`pkg/auth/oauth/pkce.go`: `numBytes := (length * 3) / 4`. -/
def numBytes (length : Nat) : Nat :=
  length * 3 / 4

/-- Embedding of `generateRandomString` (`pkg/auth/oauth/pkce.go`).  The
`randBytes` parameter stands for the bytes that `crypto/rand.Read` filled
into the freshly made slice of size `numBytes length`; theorems hypothesise
`randBytes.length = numBytes length`, i.e. a successful read.  The encoded
string is trimmed to `length` when longer. -/
def generateRandomString (length : Nat) (randBytes : List Nat) : List Char :=
  let encoded := base64RawUrlEncode randBytes
  if encoded.length > length then encoded.take length else encoded

/-- Embedding of the `PKCEChallenge` struct (`pkg/auth/oauth/pkce.go`). -/
structure PKCEChallenge where
  Verifier : String
  Challenge : String
  Method : String
deriving DecidableEq

/-- Embedding of `GeneratePKCEChallenge` (`pkg/auth/oauth/pkce.go`).  The
SHA-256 hash from `crypto/sha256` is the explicit parameter `sha` (a byte
list to byte list function); `randBytes` are the bytes the random source
produced for the verifier. -/
def GeneratePKCEChallenge (sha : List Nat → List Nat) (randBytes : List Nat) :
    PKCEChallenge :=
  let verifier := generateRandomString 128 randBytes
  let challenge := base64RawUrlEncode (sha (verifier.map Char.toNat))
  { Verifier := String.mk verifier
    Challenge := String.mk challenge
    Method := "S256" }

/-- Embedding of `GenerateState` (`pkg/auth/oauth/pkce.go`):
`generateRandomString(32)`. -/
def GenerateState (randBytes : List Nat) : String :=
  String.mk (generateRandomString 32 randBytes)

/-- Embedding of the `TokenSet` struct (`pkg/auth/types/types.go`).
Timestamps are Unix seconds. -/
structure TokenSet where
  AccessToken : String
  RefreshToken : String
  TokenType : String
  ExpiresIn : Int
  IssuedAt : Int
  Scope : String
  ClientID : String
deriving DecidableEq

/-- Embedding of `TokenSet.IsExpired` (`pkg/auth/types/types.go`): the
current instant is the explicit parameter `now` (Unix seconds).  The source
computes `expiresAt := time.Unix(t.IssuedAt+t.ExpiresIn, 0)` and returns
`time.Now().Add(5 * time.Minute).After(expiresAt)`; `After` is a strict
comparison. -/
def TokenSet.IsExpired (t : TokenSet) (now : Int) : Bool :=
  decide (now + 5 * 60 > t.IssuedAt + t.ExpiresIn)

theorem b64char_mem (n : Nat) : b64char n ∈ base64UrlAlphabet := by
  by_cases h : n < base64UrlAlphabet.length
  · rw [b64char, List.getD_eq_getElem _ _ h]
    exact List.getElem_mem h
  · rw [b64char, List.getD_eq_default _ _ (Nat.le_of_not_lt h)]
    decide

theorem mem_base64RawUrlEncode (bs : List Nat) (c : Char)
    (h : c ∈ base64RawUrlEncode bs) : c ∈ base64UrlAlphabet := by
  match bs with
  | [] => simp [base64RawUrlEncode] at h
  | [b0] =>
      simp only [base64RawUrlEncode, List.mem_cons, List.not_mem_nil, or_false] at h
      rcases h with h | h <;> (subst h; exact b64char_mem _)
  | [b0, b1] =>
      simp only [base64RawUrlEncode, List.mem_cons, List.not_mem_nil, or_false] at h
      rcases h with h | h | h <;> (subst h; exact b64char_mem _)
  | b0 :: b1 :: b2 :: rest =>
      simp only [base64RawUrlEncode, List.mem_cons] at h
      rcases h with h | h | h | h | h
      · subst h; exact b64char_mem _
      · subst h; exact b64char_mem _
      · subst h; exact b64char_mem _
      · subst h; exact b64char_mem _
      · exact mem_base64RawUrlEncode rest c h

theorem length_base64RawUrlEncode_three_mul :
    ∀ (k : Nat) (bs : List Nat), bs.length = 3 * k →
      (base64RawUrlEncode bs).length = 4 * k := by
  intro k
  induction k with
  | zero =>
      intro bs h
      have : bs = [] := List.length_eq_zero.mp (by omega)
      subst this
      simp [base64RawUrlEncode]
  | succ n ih =>
      intro bs h
      match bs with
      | [] => simp only [List.length_nil] at h; omega
      | [b0] => simp only [List.length_cons, List.length_nil] at h; omega
      | [b0, b1] => simp only [List.length_cons, List.length_nil] at h; omega
      | b0 :: b1 :: b2 :: rest =>
          have hrest : rest.length = 3 * n := by
            simp only [List.length_cons] at h; omega
          simp only [base64RawUrlEncode, List.length_cons, ih rest hrest]
          omega

/-- Embedding of the `ClientCredentials` struct (`pkg/auth/types/types.go`). -/
structure ClientCredentials where
  ClientID : String
  ClientName : String
  RedirectURIs : List String
  RegisteredAt : Int
  Site : String
deriving DecidableEq

/-- Embedding of the `CallbackResult` struct (`pkg/auth/callback`): the
query parameters `code`, `state`, `error`, `error_description` extracted by
`handleCallback` from one request to `/callback`. -/
structure CallbackResult where
  Code : String
  State : String
  Error : String
  ErrorDescription : String
deriving DecidableEq

/-- Go buffered channel of capacity 1 (`make(chan CallbackResult, 1)` in
`NewServer`): `buffer` holds at most one value; `pending` is the FIFO queue
of values whose senders are blocked on a full buffer. -/
structure Chan where
  buffer : List CallbackResult
  pending : List CallbackResult
deriving DecidableEq

/-- The freshly made channel: empty buffer, no blocked senders. -/
def Chan.empty : Chan :=
  { buffer := [], pending := [] }

/-- Channel send (`s.resultCh <- result` in `handleCallback`): fills the
buffer when there is room, otherwise the sender blocks and queues. -/
def Chan.send (c : Chan) (r : CallbackResult) : Chan :=
  if c.buffer.length < 1 then { c with buffer := c.buffer ++ [r] }
  else { c with pending := c.pending ++ [r] }

/-- Channel receive (`result := <-s.resultCh`): takes the buffered value if
any (unblocking the first queued sender into the freed buffer slot), or
reports that no value is available — which, at the moment the wait timeout
fires, is exactly the timeout case of the `select` in `WaitForCallback`. -/
def Chan.receive (c : Chan) : Option CallbackResult × Chan :=
  match c.buffer with
  | [] => (none, c)
  | v :: rest =>
      match c.pending with
      | [] => (some v, { buffer := rest, pending := [] })
      | p :: ps => (some v, { buffer := rest ++ [p], pending := ps })

/-- Embedding of the callback `Server` struct (`pkg/auth/callback`): the
OS-assigned loopback port and the capacity-1 result channel. -/
structure Server where
  port : Nat
  resultCh : Chan
deriving DecidableEq

/-- Embedding of `NewServer`: binds `127.0.0.1:0`, records the OS-assigned
ephemeral port (the explicit parameter here) and makes the capacity-1
channel. -/
def NewServer (port : Nat) : Server :=
  { port := port, resultCh := Chan.empty }

/-- Embedding of `Server.RedirectURI`:
`fmt.Sprintf("http://127.0.0.1:%d/callback", s.port)`. -/
def Server.RedirectURI (s : Server) : String :=
  "http://127.0.0.1:" ++ toString s.port ++ "/callback"

/-- Embedding of `Server.handleCallback` for one request: the parsed query
parameters are sent on the result channel.  (Rendering the HTML response is
presentation only and independent of the hand-off.) -/
def handleCallback (s : Server) (r : CallbackResult) : Server :=
  { s with resultCh := s.resultCh.send r }

/-- The server after a sequence of callback requests has been handled, in
arrival order. -/
def handleAll (s : Server) (rs : List CallbackResult) : Server :=
  rs.foldl handleCallback s

/-- Embedding of `Server.WaitForCallback`: the `select` either receives the
one result or, when the channel state at the end of the timeout window still
holds nothing, returns the timeout error.  The channel argument reflects
every request that arrived within the timeout. -/
def WaitForCallback (s : Server) : Except String CallbackResult × Server :=
  match s.resultCh.receive with
  | (some v, c) => (Except.ok v, { s with resultCh := c })
  | (none, c) => (Except.error "timeout waiting for OAuth callback", { s with resultCh := c })

theorem Chan.send_full (c : Chan) (v r : CallbackResult) (h : c.buffer = [v]) :
    (c.send r).buffer = [v] := by
  simp [Chan.send, h]

theorem Chan.sendAll_full :
    ∀ (rs : List CallbackResult) (c : Chan) (v : CallbackResult),
      c.buffer = [v] → (rs.foldl Chan.send c).buffer = [v] := by
  intro rs
  induction rs with
  | nil => intro c v h; exact h
  | cons r rest ih =>
      intro c v h
      exact ih (c.send r) v (Chan.send_full c v r h)

theorem handleAll_resultCh (s : Server) (rs : List CallbackResult) :
    (handleAll s rs).resultCh = rs.foldl Chan.send s.resultCh ∧
      (handleAll s rs).port = s.port := by
  induction rs generalizing s with
  | nil => exact ⟨rfl, rfl⟩
  | cons r rest ih =>
      simpa [handleAll, List.foldl_cons, handleCallback] using ih (handleCallback s r)

theorem wait_first (port : Nat) (first : CallbackResult) (rest : List CallbackResult) :
    (WaitForCallback (handleAll (NewServer port) (first :: rest))).1 =
      Except.ok first := by
  have hch := (handleAll_resultCh (NewServer port) (first :: rest)).1
  have hbuf : ((first :: rest).foldl Chan.send (NewServer port).resultCh).buffer = [first] := by
    simp only [List.foldl_cons]
    exact Chan.sendAll_full rest _ first (by simp [NewServer, Chan.empty, Chan.send])
  simp only [WaitForCallback, Chan.receive, hch, hbuf]
  cases hp : (((first :: rest).foldl Chan.send (NewServer port).resultCh)).pending <;> simp

/-- The per-site view of the credential store consumed by `cmd/auth.go`.
Modelled from the spec: `storage.FileStorage` is not under `src/`; per the
CredentialStore contract (§6) it holds at most one `ClientCredentials` and
one `TokenSet` per site, loaded, saved and deleted atomically.  Every
storage call of one orchestrator action uses the same site, so the store is
embedded as that site's slice. -/
structure Store where
  creds : Option ClientCredentials
  tokens : Option TokenSet
deriving DecidableEq

/-- Modelled from the spec: `FileStorage.SaveClientCredentials` replaces the
stored credentials for the site. -/
def Store.saveClientCredentials (s : Store) (c : ClientCredentials) : Store :=
  { s with creds := some c }

/-- Modelled from the spec: `FileStorage.SaveTokens` replaces the stored
token set for the site. -/
def Store.saveTokens (s : Store) (t : TokenSet) : Store :=
  { s with tokens := some t }

/-- Modelled from the spec: `FileStorage.DeleteTokens` removes the token set
for the site; it always succeeds, also when nothing was stored (§4.6). -/
def Store.deleteTokens (s : Store) : Store :=
  { s with tokens := none }

/-- Modelled from the spec: `FileStorage.DeleteClientCredentials` removes the
client credentials for the site; it always succeeds, also when nothing was
stored (§4.6). -/
def Store.deleteClientCredentials (s : Store) : Store :=
  { s with creds := none }

/-- The error message of the spec-modelled CSRF state check. -/
def csrfMismatchMsg : String :=
  "state mismatch - possible CSRF attack"

/-- Modelled from the spec: `oauth.Client.ValidateCallback` is not under
`src/` (only its caller in `cmd/auth.go` is).  Per §4.6 it checks that the
state returned on the callback equals the generated CSRFState exactly,
failing with a CSRF-mismatch error on any difference, and requires the
authorization code to be present. -/
def ValidateCallback (code state expectedState : String) : Except String Unit :=
  if state ≠ expectedState then Except.error csrfMismatchMsg
  else if code = "" then Except.error "missing authorization code"
  else Except.ok ()

/-- The timeout `runAuthLogin` passes to `WaitForCallback`
(`5 * time.Minute` in `cmd/auth.go`), in seconds. -/
def loginWaitTimeoutSeconds : Nat :=
  5 * 60

/-- One external call performed by an orchestrator action, recorded in
arrival order with the arguments the orchestrator passed. -/
inductive Event where
  | registerClient (redirectURI : String)
  | saveClientCredentials (c : ClientCredentials)
  | buildAuthURL (clientID redirectURI state challenge : String)
  | openBrowser
  | waitCallback (timeoutSeconds : Nat)
  | exchangeCode (code redirectURI verifier : String)
  | saveTokens (t : TokenSet)
deriving DecidableEq

/-- The environment of one `runAuthLogin` invocation: everything decided
outside `cmd/auth.go` — the OS-assigned listener port, the standard-library
hash, the random bytes drawn for the PKCE verifier and the CSRF state, the
callback requests arriving within the wait timeout (in order), and the
outcomes of the two DCR network calls. -/
structure LoginEnv where
  port : Nat
  sha : List Nat → List Nat
  pkceRand : List Nat
  stateRand : List Nat
  requests : List CallbackResult
  registerResult : Except String ClientCredentials
  exchangeResult : Except String TokenSet

/-- The observable outcome of one orchestrator action: the store it leaves
behind, the trace of external calls, and its reported result. -/
structure LoginOutcome where
  store : Store
  events : List Event
  result : Except String Unit

/-- The part of `runAuthLogin` (`cmd/auth.go`) after client credentials are
in hand: generate the PKCE challenge and CSRF state, build the authorization
URL, open the browser (its failure is printed and ignored), wait up to five
minutes for the callback, surface a provider error, validate the callback,
exchange the code and persist the resulting tokens. -/
def loginAfterCreds (store : Store) (env : LoginEnv) (c : ClientCredentials)
    (ev0 : List Event) : LoginOutcome :=
  let redirectURI := (NewServer env.port).RedirectURI
  let pkce := GeneratePKCEChallenge env.sha env.pkceRand
  let state := GenerateState env.stateRand
  let ev1 := ev0 ++ [Event.buildAuthURL c.ClientID redirectURI state pkce.Challenge,
    Event.openBrowser, Event.waitCallback loginWaitTimeoutSeconds]
  match (WaitForCallback (handleAll (NewServer env.port) env.requests)).1 with
  | Except.error e =>
      { store := store, events := ev1
        result := Except.error ("failed to receive callback: " ++ e) }
  | Except.ok result =>
      if result.Error ≠ "" then
        { store := store, events := ev1
          result := Except.error
            ("OAuth error: " ++ result.Error ++ " - " ++ result.ErrorDescription) }
      else
        match ValidateCallback result.Code result.State state with
        | Except.error e =>
            { store := store, events := ev1
              result := Except.error ("invalid callback: " ++ e) }
        | Except.ok _ =>
            let ev2 := ev1 ++ [Event.exchangeCode result.Code redirectURI pkce.Verifier]
            match env.exchangeResult with
            | Except.error e =>
                { store := store, events := ev2
                  result := Except.error ("failed to exchange code: " ++ e) }
            | Except.ok tokens =>
                { store := store.saveTokens tokens
                  events := ev2 ++ [Event.saveTokens tokens]
                  result := Except.ok () }

/-- Embedding of `runAuthLogin` (`cmd/auth.go`): load the site's client
credentials; when absent, register a new client via DCR and persist the
credentials immediately; then run the rest of the flow. -/
def runAuthLogin (store : Store) (env : LoginEnv) : LoginOutcome :=
  let redirectURI := (NewServer env.port).RedirectURI
  match store.creds with
  | none =>
      match env.registerResult with
      | Except.error e =>
          { store := store, events := [Event.registerClient redirectURI]
            result := Except.error ("failed to register client: " ++ e) }
      | Except.ok c =>
          loginAfterCreds (store.saveClientCredentials c) env c
            [Event.registerClient redirectURI, Event.saveClientCredentials c]
  | some c => loginAfterCreds store env c []

/-- Embedding of `runAuthRefresh` (`cmd/auth.go`): fail fast when tokens or
credentials are missing; call the DCR refresh-token grant (the network call
`dcr.Client.RefreshToken` is not under `src/`, so its behaviour is the
explicit parameter `refreshCall`); persist the new token set only on
success. -/
def runAuthRefresh (store : Store)
    (refreshCall : String → ClientCredentials → Except String TokenSet) :
    Store × Except String Unit :=
  match store.tokens with
  | none => (store, Except.error "no refresh token available - please run auth login")
  | some t =>
      if t.RefreshToken = "" then
        (store, Except.error "no refresh token available - please run auth login")
      else
        match store.creds with
        | none => (store, Except.error "no client credentials found - please run auth login")
        | some c =>
            match refreshCall t.RefreshToken c with
            | Except.error e => (store, Except.error ("failed to refresh token: " ++ e))
            | Except.ok newTokens => (store.saveTokens newTokens, Except.ok ())

/-- Embedding of `runAuthLogout` (`cmd/auth.go`): delete the token set, then
the client credentials, unconditionally. -/
def runAuthLogout (store : Store) : Store × Except String Unit :=
  let s1 := store.deleteTokens
  let s2 := s1.deleteClientCredentials
  (s2, Except.ok ())

/-- Decidable form of "uses only URL-safe base64 characters". -/
def isBase64UrlChar (c : Char) : Bool :=
  base64UrlAlphabet.contains c

theorem all_base64UrlChar_of_encode (bs : List Nat) :
    (base64RawUrlEncode bs).all isBase64UrlChar = true := by
  rw [List.all_eq_true]
  intro c hc
  simpa [isBase64UrlChar, List.contains] using mem_base64RawUrlEncode bs c hc

/-- Claim C1, counterexample: for the token issued at 0 with `expires_in`
3600, the boundary instant of the claim is `now = 3300` (`issued_at +
expires_in - 300`); the claim demands `isExpiringSoon` be true at the
boundary itself, but `TokenSet.IsExpired` — a strict `After` comparison —
returns false there. -/
theorem isExpired_boundary_counterexample :
    TokenSet.IsExpired
        { AccessToken := "t1", RefreshToken := "r1", TokenType := "Bearer",
          ExpiresIn := 3600, IssuedAt := 0, Scope := "", ClientID := "" } 3300 = false ∧
      (3300 : Int) ≥ 0 + 3600 - 300 := by
  constructor
  · decide
  · decide

/-- Claim C1, amended: `IsExpired token now` is true exactly when `now` is
STRICTLY greater than `issued_at + expires_in - 300` seconds: it is false
one second before that boundary, false at the boundary itself, and true one
second after. -/
theorem isExpired_iff_strictly_past_boundary (t : TokenSet) (now : Int) :
    (t.IsExpired now = true ↔ now > t.IssuedAt + t.ExpiresIn - 300) ∧
      t.IsExpired (t.IssuedAt + t.ExpiresIn - 300 - 1) = false ∧
      t.IsExpired (t.IssuedAt + t.ExpiresIn - 300) = false ∧
      t.IsExpired (t.IssuedAt + t.ExpiresIn - 300 + 1) = true := by
  refine ⟨?_, ?_, ?_, ?_⟩ <;>
    simp only [TokenSet.IsExpired, decide_eq_true_eq, decide_eq_false_iff_not, not_lt] <;>
    omega

/-- Claim C5: a PKCE challenge generated from a successful 96-byte random
read has a verifier of length between 43 and 128 (here exactly 128) made of
URL-safe base64 characters only, a challenge that is the unpadded base64url
encoding of the SHA-256 hash of the verifier's bytes — for every hash
function `sha`, hence for SHA-256 in particular — and the method "S256". -/
theorem pkceChallenge_spec (sha : List Nat → List Nat) (randBytes : List Nat)
    (h : randBytes.length = numBytes 128) :
    43 ≤ (GeneratePKCEChallenge sha randBytes).Verifier.length ∧
      (GeneratePKCEChallenge sha randBytes).Verifier.length ≤ 128 ∧
      (GeneratePKCEChallenge sha randBytes).Verifier.data.all isBase64UrlChar = true ∧
      (GeneratePKCEChallenge sha randBytes).Challenge.data =
        base64RawUrlEncode
          (sha ((GeneratePKCEChallenge sha randBytes).Verifier.data.map Char.toNat)) ∧
      (GeneratePKCEChallenge sha randBytes).Method = "S256" := by
  have h96 : randBytes.length = 3 * 32 := by
    simp only [numBytes] at h
    omega
  have hlen : (base64RawUrlEncode randBytes).length = 128 :=
    length_base64RawUrlEncode_three_mul 32 randBytes h96
  have hver : generateRandomString 128 randBytes = base64RawUrlEncode randBytes := by
    simp [generateRandomString, hlen]
  refine ⟨?_, ?_, ?_, ?_, rfl⟩
  · show 43 ≤ (generateRandomString 128 randBytes).length
    rw [hver, hlen]
    omega
  · show (generateRandomString 128 randBytes).length ≤ 128
    rw [hver, hlen]
  · show (generateRandomString 128 randBytes).all isBase64UrlChar = true
    rw [hver]
    exact all_base64UrlChar_of_encode randBytes
  · rfl

/-- A fixed stand-in for the external SHA-256 function, used to evaluate the
PKCE generator at a concrete input. -/
def shaConst (bs : List Nat) : List Nat :=
  List.replicate 32 (bs.length % 256)

/-- Concrete witness input: 96 zero bytes from the random source. -/
def zeroRand96 : List Nat :=
  List.replicate 96 0

theorem pkceChallenge_spec_witness :
    43 ≤ (GeneratePKCEChallenge shaConst zeroRand96).Verifier.length ∧
      (GeneratePKCEChallenge shaConst zeroRand96).Verifier.length ≤ 128 ∧
      (GeneratePKCEChallenge shaConst zeroRand96).Verifier.data.all isBase64UrlChar = true ∧
      (GeneratePKCEChallenge shaConst zeroRand96).Challenge.data =
        base64RawUrlEncode
          (shaConst ((GeneratePKCEChallenge shaConst zeroRand96).Verifier.data.map Char.toNat)) ∧
      (GeneratePKCEChallenge shaConst zeroRand96).Method = "S256" :=
  pkceChallenge_spec shaConst zeroRand96 (by decide)

/-- Claim C8: a CSRF state generated from a successful 24-byte random read
has length at least 32 (here exactly 32) and consists only of URL-safe
base64 characters. -/
theorem generateState_spec (randBytes : List Nat)
    (h : randBytes.length = numBytes 32) :
    32 ≤ (GenerateState randBytes).length ∧
      (GenerateState randBytes).data.all isBase64UrlChar = true := by
  have h24 : randBytes.length = 3 * 8 := by
    simp only [numBytes] at h
    omega
  have hlen : (base64RawUrlEncode randBytes).length = 32 :=
    length_base64RawUrlEncode_three_mul 8 randBytes h24
  have hst : generateRandomString 32 randBytes = base64RawUrlEncode randBytes := by
    simp [generateRandomString, hlen]
  constructor
  · show 32 ≤ (generateRandomString 32 randBytes).length
    rw [hst, hlen]
  · show (generateRandomString 32 randBytes).all isBase64UrlChar = true
    rw [hst]
    exact all_base64UrlChar_of_encode randBytes

/-- Concrete witness input: 24 zero bytes from the random source. -/
def zeroRand24 : List Nat :=
  List.replicate 24 0

theorem generateState_spec_witness :
    32 ≤ (GenerateState zeroRand24).length ∧
      (GenerateState zeroRand24).data.all isBase64UrlChar = true :=
  generateState_spec zeroRand24 (by decide)

/-- Claim C6: logout succeeds on every store state — including one with
nothing stored — and leaves neither client credentials nor a token set for
the site; running it twice in a row succeeds both times and is idempotent. -/
theorem logout_idempotent (store : Store) :
    (runAuthLogout store).2 = Except.ok () ∧
      (runAuthLogout store).1.creds = none ∧
      (runAuthLogout store).1.tokens = none ∧
      (runAuthLogout (runAuthLogout store).1).2 = Except.ok () ∧
      (runAuthLogout (runAuthLogout store).1).1 = (runAuthLogout store).1 := by
  refine ⟨rfl, rfl, rfl, rfl, rfl⟩

/-- One login flow's side of the rendezvous: the requests `pre` arrive (the
first of them within the wait timeout), the flow performs its single
`WaitForCallback` receive — `runAuthLogin` calls it exactly once — and the
requests `post` arrive afterwards.  Returns the list of results delivered to
the flow together with the final server state. -/
def flowDeliveries (port : Nat) (pre post : List CallbackResult) :
    List CallbackResult × Server :=
  match WaitForCallback (handleAll (NewServer port) pre) with
  | (Except.ok v, s2) => ([v], handleAll s2 post)
  | (Except.error _, s2) => ([], handleAll s2 post)

/-- Claim C3: the flow waiting in `WaitForCallback` consumes exactly the
first `CallbackResult` produced by the listener; however many further
requests arrive — before or after the receive — none is delivered to the
flow, which receives exactly once. -/
theorem flow_consumes_exactly_first (port : Nat) (first : CallbackResult)
    (pre post : List CallbackResult) :
    (flowDeliveries port (first :: pre) post).1 = [first] := by
  have h := wait_first port first pre
  rcases hw : WaitForCallback (handleAll (NewServer port) (first :: pre)) with ⟨r, s2⟩
  rw [hw] at h
  simp only at h
  subst h
  simp [flowDeliveries, hw]

theorem loginAfterCreds_shape (store : Store) (env : LoginEnv)
    (c : ClientCredentials) (ev0 : List Event) :
    ∃ tail : List Event,
      (loginAfterCreds store env c ev0).events =
        ev0 ++ [Event.buildAuthURL c.ClientID (NewServer env.port).RedirectURI
            (GenerateState env.stateRand)
            (GeneratePKCEChallenge env.sha env.pkceRand).Challenge,
          Event.openBrowser, Event.waitCallback loginWaitTimeoutSeconds] ++ tail ∧
      ∀ e ∈ tail,
        (∃ code, e = Event.exchangeCode code (NewServer env.port).RedirectURI
          (GeneratePKCEChallenge env.sha env.pkceRand).Verifier) ∨
        ∃ tk, e = Event.saveTokens tk := by
  unfold loginAfterCreds
  dsimp only
  split
  · exact ⟨[], by simp, by simp⟩
  rename_i r heqr
  split
  · exact ⟨[], by simp, by simp⟩
  split
  · exact ⟨[], by simp, by simp⟩
  split
  · refine ⟨[Event.exchangeCode r.Code (NewServer env.port).RedirectURI
      (GeneratePKCEChallenge env.sha env.pkceRand).Verifier], by simp, ?_⟩
    intro e he
    simp only [List.mem_singleton] at he
    subst he
    exact Or.inl ⟨r.Code, rfl⟩
  rename_i tokens heqt
  refine ⟨[Event.exchangeCode r.Code (NewServer env.port).RedirectURI
      (GeneratePKCEChallenge env.sha env.pkceRand).Verifier,
      Event.saveTokens tokens], by simp, ?_⟩
  intro e he
  simp only [List.mem_cons, List.mem_singleton, List.not_mem_nil, or_false] at he
  rcases he with he | he
  · subst he
    exact Or.inl ⟨r.Code, rfl⟩
  · subst he
    exact Or.inr ⟨tokens, rfl⟩

theorem waitCallback_timeout_of_mem (store : Store) (env : LoginEnv) (t : Nat)
    (h : Event.waitCallback t ∈ (runAuthLogin store env).events) :
    t = loginWaitTimeoutSeconds := by
  have after : ∀ (s : Store) (c : ClientCredentials) (ev0 : List Event),
      (∀ t', Event.waitCallback t' ∈ ev0 → t' = loginWaitTimeoutSeconds) →
      Event.waitCallback t ∈ (loginAfterCreds s env c ev0).events →
      t = loginWaitTimeoutSeconds := by
    intro s c ev0 h0 hm
    obtain ⟨tail, hev, htail⟩ := loginAfterCreds_shape s env c ev0
    rw [hev] at hm
    simp only [List.mem_append, List.mem_cons, List.not_mem_nil, or_false] at hm
    rcases hm with (hm | (hm | hm | hm)) | hm
    · exact h0 t hm
    · exact absurd hm (by simp)
    · exact absurd hm (by simp)
    · exact (Event.waitCallback.injEq _ _).mp hm
    · rcases htail _ hm with ⟨code, hc⟩ | ⟨tk, hc⟩ <;> simp at hc
  unfold runAuthLogin at h
  rcases hc : store.creds with _ | c
  · rw [hc] at h
    rcases hr : env.registerResult with e | c2
    · rw [hr] at h
      simp only at h
      exact absurd h (by simp)
    · rw [hr] at h
      simp only at h
      refine after _ c2 _ ?_ h
      intro t' ht'
      simp at ht'
  · rw [hc] at h
    simp only at h
    refine after _ c _ ?_ h
    intro t' ht'
    simp at ht'

/-- A concrete client-credential fixture. -/
def cred0 : ClientCredentials :=
  { ClientID := "abc", ClientName := "pup",
    RedirectURIs := ["http://127.0.0.1:9000/callback"],
    RegisteredAt := 0, Site := "datadoghq.com" }

/-- A concrete token-set fixture. -/
def token0 : TokenSet :=
  { AccessToken := "t1", RefreshToken := "r1", TokenType := "Bearer",
    ExpiresIn := 3600, IssuedAt := 0, Scope := "", ClientID := "abc" }

/-- Store holding only client credentials. -/
def storeWithCreds : Store :=
  { creds := some cred0, tokens := none }

/-- Store holding nothing. -/
def storeEmpty : Store :=
  { creds := none, tokens := none }

/-- Store holding credentials and tokens. -/
def storeFull : Store :=
  { creds := some cred0, tokens := some token0 }

/-- A callback request carrying the CSRF state that `GenerateState` yields
on the all-zero random read, and a well-formed code. -/
def okCallback : CallbackResult :=
  { Code := "authcode", State := GenerateState zeroRand24,
    Error := "", ErrorDescription := "" }

/-- A callback request carrying a well-formed code but a wrong state. -/
def badStateCallback : CallbackResult :=
  { Code := "authcode", State := "WRONG-STATE",
    Error := "", ErrorDescription := "" }

/-- A login environment in which every external step succeeds. -/
def env1 : LoginEnv :=
  { port := 9000, sha := shaConst, pkceRand := zeroRand96,
    stateRand := zeroRand24, requests := [okCallback],
    registerResult := Except.ok cred0, exchangeResult := Except.ok token0 }

/-- The same environment with the wrong-state callback. -/
def env2 : LoginEnv :=
  { env1 with requests := [badStateCallback] }

/-- Claim C7: `WaitForCallback` returns the received `CallbackResult` when a
callback request arrives within the timeout; when none arrives it returns
the timeout error as an ordinary reported failure, not a crash; and
`runAuthLogin` invokes the wait with a 5-minute (300-second) timeout. -/
theorem waitForCallback_timeout_spec (port : Nat) (r : CallbackResult)
    (store : Store) (env : LoginEnv) (t : Nat)
    (h : Event.waitCallback t ∈ (runAuthLogin store env).events) :
    (WaitForCallback (handleCallback (NewServer port) r)).1 = Except.ok r ∧
      (WaitForCallback (NewServer port)).1 =
        Except.error "timeout waiting for OAuth callback" ∧
      t = 5 * 60 := by
  refine ⟨?_, rfl, waitCallback_timeout_of_mem store env t h⟩
  simp [WaitForCallback, handleCallback, NewServer, Chan.empty, Chan.send, Chan.receive]

theorem waitForCallback_timeout_spec_witness :
    (WaitForCallback (handleCallback (NewServer 9000) okCallback)).1 =
        Except.ok okCallback ∧
      (WaitForCallback (NewServer 9000)).1 =
        Except.error "timeout waiting for OAuth callback" ∧
      300 = 5 * 60 :=
  waitForCallback_timeout_spec 9000 okCallback storeWithCreds env1 300 (by decide)

theorem loginAfterCreds_csrf (store : Store) (env : LoginEnv) (c : ClientCredentials)
    (ev0 : List Event) (first : CallbackResult) (rest : List CallbackResult)
    (hreq : env.requests = first :: rest)
    (hErr : first.Error = "")
    (hSt : first.State ≠ GenerateState env.stateRand) :
    loginAfterCreds store env c ev0 =
      { store := store,
        events := ev0 ++ [Event.buildAuthURL c.ClientID (NewServer env.port).RedirectURI
            (GenerateState env.stateRand)
            (GeneratePKCEChallenge env.sha env.pkceRand).Challenge,
          Event.openBrowser, Event.waitCallback loginWaitTimeoutSeconds],
        result := Except.error ("invalid callback: " ++ csrfMismatchMsg) } := by
  unfold loginAfterCreds
  dsimp only
  rw [hreq, wait_first]
  simp [hErr, ValidateCallback, hSt]

/-- Claim C2: when the callback's state differs from the CSRF state
generated for the flow, login aborts with the CSRF-mismatch error and the
code exchange is never invoked — also when the callback's code is non-empty
and well-formed.  The disjunctive hypothesis covers both ways the flow can
hold credentials: loaded from the store or just registered. -/
theorem login_csrf_mismatch_aborts (store : Store) (env : LoginEnv)
    (c : ClientCredentials) (first : CallbackResult) (rest : List CallbackResult)
    (code uri verifier : String)
    (hcreds : store.creds = some c ∨ env.registerResult = Except.ok c)
    (hreq : env.requests = first :: rest)
    (hErr : first.Error = "")
    (hSt : first.State ≠ GenerateState env.stateRand) :
    (runAuthLogin store env).result =
        Except.error ("invalid callback: " ++ csrfMismatchMsg) ∧
      Event.exchangeCode code uri verifier ∉ (runAuthLogin store env).events := by
  rcases hc : store.creds with _ | c'
  · rcases hcreds with h | h
    · rw [hc] at h
      exact absurd h (by simp)
    · unfold runAuthLogin
      rw [hc, h]
      dsimp only
      rw [loginAfterCreds_csrf _ _ _ _ first rest hreq hErr hSt]
      refine ⟨rfl, ?_⟩
      simp
  · unfold runAuthLogin
    rw [hc]
    dsimp only
    rw [loginAfterCreds_csrf _ _ _ _ first rest hreq hErr hSt]
    refine ⟨rfl, ?_⟩
    simp

theorem login_csrf_mismatch_aborts_witness :
    (runAuthLogin storeWithCreds env2).result =
        Except.error ("invalid callback: " ++ csrfMismatchMsg) ∧
      Event.exchangeCode "authcode" "http://evil.example/callback" "v" ∉
        (runAuthLogin storeWithCreds env2).events :=
  login_csrf_mismatch_aborts storeWithCreds env2 cred0 badStateCallback []
    "authcode" "http://evil.example/callback" "v" (Or.inl rfl) rfl rfl (by decide)

/-- The redirect-URI discipline an event must satisfy: every external call
that carries a redirect URI — the DCR registration request, the
authorization-URL construction and the code-exchange call — carries the
expected one; events without a redirect URI are unconstrained. -/
def eventURIOk (expected : String) : Event → Prop
  | Event.registerClient uri => uri = expected
  | Event.buildAuthURL _ uri _ _ => uri = expected
  | Event.exchangeCode _ uri _ => uri = expected
  | _ => True

/-- Claim C9: every event of a login flow that carries a redirect URI —
registration request, authorization URL, code exchange — carries the one
single value `http://127.0.0.1:<port>/callback` built from the listener's
OS-assigned port. -/
theorem login_redirect_uri_consistent (store : Store) (env : LoginEnv) (e : Event)
    (h : e ∈ (runAuthLogin store env).events) :
    eventURIOk ((NewServer env.port).RedirectURI) e ∧
      (NewServer env.port).RedirectURI =
        "http://127.0.0.1:" ++ toString env.port ++ "/callback" := by
  refine ⟨?_, rfl⟩
  have after : ∀ (s : Store) (c : ClientCredentials) (ev0 : List Event),
      (∀ e2 ∈ ev0, eventURIOk ((NewServer env.port).RedirectURI) e2) →
      e ∈ (loginAfterCreds s env c ev0).events →
      eventURIOk ((NewServer env.port).RedirectURI) e := by
    intro s c ev0 h0 hm
    obtain ⟨tail, hev, htail⟩ := loginAfterCreds_shape s env c ev0
    rw [hev] at hm
    simp only [List.mem_append, List.mem_cons, List.not_mem_nil, or_false] at hm
    rcases hm with (hm | (hm | hm | hm)) | hm
    · exact h0 e hm
    · subst hm; exact rfl
    · subst hm; trivial
    · subst hm; trivial
    · rcases htail e hm with ⟨code2, hc2⟩ | ⟨tk, hc2⟩
      · subst hc2; exact rfl
      · subst hc2; trivial
  unfold runAuthLogin at h
  dsimp only at h
  rcases hc : store.creds with _ | c
  · rw [hc] at h
    rcases hr : env.registerResult with er | c2
    · rw [hr] at h
      simp only [List.mem_singleton] at h
      subst h
      exact rfl
    · rw [hr] at h
      refine after _ c2 _ ?_ h
      intro e2 he2
      simp only [List.mem_cons, List.not_mem_nil, or_false] at he2
      rcases he2 with he2 | he2
      · subst he2; exact rfl
      · subst he2; trivial
  · rw [hc] at h
    exact after _ c _ (by simp) h

theorem login_redirect_uri_consistent_witness :
    eventURIOk ((NewServer env1.port).RedirectURI)
        (Event.registerClient ((NewServer env1.port).RedirectURI)) ∧
      (NewServer env1.port).RedirectURI =
        "http://127.0.0.1:" ++ toString env1.port ++ "/callback" :=
  login_redirect_uri_consistent storeEmpty env1
    (Event.registerClient ((NewServer env1.port).RedirectURI)) (by decide)

theorem loginAfterCreds_store_creds (s : Store) (env : LoginEnv)
    (c : ClientCredentials) (ev0 : List Event) :
    (loginAfterCreds s env c ev0).store.creds = s.creds := by
  unfold loginAfterCreds
  dsimp only
  split
  · rfl
  split
  · rfl
  split
  · rfl
  split
  · rfl
  · rfl

/-- Claim C10: when a login registers a new client, the credentials are
persisted immediately — they remain in the store whatever happens in the
rest of the flow (callback timeout, provider error, CSRF mismatch or
exchange failure all leave the store as it was after the save) — and a
subsequent login for the same site, finding them stored, performs no
registration request. -/
theorem login_registration_persists (store : Store) (env envB : LoginEnv)
    (c : ClientCredentials) (uri : String)
    (h1 : store.creds = none) (h2 : env.registerResult = Except.ok c) :
    (runAuthLogin store env).store.creds = some c ∧
      Event.registerClient uri ∉
        (runAuthLogin (runAuthLogin store env).store envB).events := by
  have hcreds : (runAuthLogin store env).store.creds = some c := by
    unfold runAuthLogin
    dsimp only
    rw [h1, h2]
    rw [loginAfterCreds_store_creds]
    rfl
  refine ⟨hcreds, ?_⟩
  generalize hg : (runAuthLogin store env).store = store2 at hcreds ⊢
  intro hmem
  unfold runAuthLogin at hmem
  dsimp only at hmem
  rw [hcreds] at hmem
  obtain ⟨tail, hev, htail⟩ := loginAfterCreds_shape store2 envB c []
  rw [hev] at hmem
  simp only [List.nil_append, List.mem_append, List.mem_cons, List.not_mem_nil,
    or_false] at hmem
  rcases hmem with (hm | hm | hm) | hm
  · simp at hm
  · simp at hm
  · simp at hm
  · rcases htail _ hm with ⟨code2, hc2⟩ | ⟨tk, hc2⟩ <;> simp at hc2

theorem login_registration_persists_witness :
    (runAuthLogin storeEmpty env1).store.creds = some cred0 ∧
      Event.registerClient "http://attacker.example/callback" ∉
        (runAuthLogin (runAuthLogin storeEmpty env1).store env1).events :=
  login_registration_persists storeEmpty env1 env1 cred0
    "http://attacker.example/callback" rfl rfl

/-- Whether a DCR token call succeeded. -/
def exceptIsOk : Except String TokenSet → Bool
  | Except.ok _ => true
  | Except.error _ => false

/-- Claim C4: with a token set and client credentials stored, a failing
refresh call leaves the store — in particular the previously stored token
set — completely unchanged and reports failure; and under any refresh
behaviour whatsoever the store changes only when the refresh call returned
a new token set successfully. -/
theorem refresh_failure_preserves_store (store : Store)
    (refreshCall refreshCallB : String → ClientCredentials → Except String TokenSet)
    (t : TokenSet) (c : ClientCredentials) (e : String)
    (h1 : store.tokens = some t) (h2 : t.RefreshToken ≠ "")
    (h3 : store.creds = some c)
    (h4 : refreshCall t.RefreshToken c = Except.error e) :
    (runAuthRefresh store refreshCall).1 = store ∧
      (runAuthRefresh store refreshCall).2 =
        Except.error ("failed to refresh token: " ++ e) ∧
      ((runAuthRefresh store refreshCallB).1 ≠ store →
        exceptIsOk (refreshCallB t.RefreshToken c) = true) := by
  have hred : ∀ (rc : String → ClientCredentials → Except String TokenSet),
      runAuthRefresh store rc =
        match rc t.RefreshToken c with
        | Except.error e2 => (store, Except.error ("failed to refresh token: " ++ e2))
        | Except.ok nt => (store.saveTokens nt, Except.ok ()) := by
    intro rc
    unfold runAuthRefresh
    rw [h1]
    simp only [if_neg h2, h3]
  refine ⟨?_, ?_, ?_⟩
  · rw [hred refreshCall, h4]
  · rw [hred refreshCall, h4]
  · intro hne
    rcases hrB : refreshCallB t.RefreshToken c with eB | ntB
    · exfalso
      apply hne
      rw [hred refreshCallB, hrB]
    · simp [exceptIsOk]

/-- A refresh call that always fails, as a provider returning HTTP 400
would make it. -/
def refreshFail (_rt : String) (_c : ClientCredentials) : Except String TokenSet :=
  Except.error "HTTP 400"

theorem refresh_failure_preserves_store_witness :
    (runAuthRefresh storeFull refreshFail).1 = storeFull ∧
      (runAuthRefresh storeFull refreshFail).2 =
        Except.error ("failed to refresh token: " ++ "HTTP 400") ∧
      ((runAuthRefresh storeFull refreshFail).1 ≠ storeFull →
        exceptIsOk (refreshFail token0.RefreshToken cred0) = true) :=
  refresh_failure_preserves_store storeFull refreshFail refreshFail token0 cred0
    "HTTP 400" rfl (by decide) rfl rfl
